import Mathlib

/-!
Verification of the layer/viewport reconciliation logic of
`x-pack/plugins/gis/public/selectors/ol_map_selectors.js`.

The JavaScript file reconciles a declarative layer list against an
OpenLayers map instance.  We shallowly embed the file's functions as pure
Lean functions: the mutable OpenLayers map becomes an explicit
`OlMapState` value that is threaded through, the external projection and
style-resolution collaborators become function parameters, object identity
of scene layers is tracked through an allocation tag `ref`, and the
unbounded recursion of `updateMapLayerOrder` becomes fuel-indexed
recursion (`none` = the recursion has not finished within the given
depth).  JavaScript id values (compared with `===`, tested for truthiness
with `!`, and replaced by a fresh empty array `[]` by `getLayersIds` when
falsy) are modelled by the type `JsVal`.
-/

namespace GisSync

/-- JavaScript values that occur in id positions of the reconciler:
numbers, strings, booleans, `undefined`, and the freshly-allocated empty
array that `getLayersIds` substitutes for a falsy id (`layer.get('id') || []`).
Two distinct freshly allocated arrays are never `===`-equal, and none of
the values in play is ever compared against the same array allocation
twice, so `freshArr === _` is uniformly `false`. -/
inductive JsVal where
  | num (n : Int)
  | str (s : String)
  | bool (b : Bool)
  | undefined
  | freshArr
deriving DecidableEq, Repr

/-- JavaScript truthiness of a `JsVal`. -/
def truthy : JsVal → Bool
  | .num n => n != 0
  | .str s => s != ""
  | .bool b => b
  | .undefined => false
  | .freshArr => true

/-- JavaScript `===` on the values in play. -/
def strictEq : JsVal → JsVal → Bool
  | .num a, .num b => a == b
  | .str a, .str b => a == b
  | .bool a, .bool b => a == b
  | .undefined, .undefined => true
  | _, _ => false

/-- A "regular" id: truthy and not an array allocation.  All real layer
ids (non-empty strings, non-zero numbers) are regular. -/
def regular : JsVal → Bool
  | .freshArr => false
  | v => truthy v

/-- Reading `xs[i]` in JavaScript yields `undefined` when out of range. -/
def optToJs : Option JsVal → JsVal
  | some v => v
  | none => .undefined

/-- The `LAYER_TYPE` tag of a declarative layer; `UNKNOWN` stands for any
tag outside the three known variants (the `default` branch of the
converter's `switch`). -/
inductive LayerType where
  | TILE
  | VECTOR
  | GEOHASH_GRID
  | UNKNOWN (tag : Nat)
deriving DecidableEq, Repr

/-- A declarative layer as consumed by the reconciler: `id`
(`layer.getId()`), `type` (`layer.getType()`), `visible`
(`layer.isVisible()`), `temporary` (`layer.isTemporary()`), the opaque
style descriptor (`layer.getCurrentStyle()`) and the opaque source
descriptor (`layer.toLayerDescriptor().source`). -/
structure Layer where
  id : JsVal
  type : LayerType
  visible : Bool
  temporary : Bool
  style : Nat
  source : Nat
deriving DecidableEq, Repr

/-- Which OpenLayers constructor produced a scene layer. -/
inductive OlKind where
  | tile
  | vector
  | heatmap
deriving DecidableEq, Repr

/-- Whether the scene layer object exposes `setStyle`
(`ol.layer.Tile` does not; vector and heatmap layers do). -/
def hasSetStyle : OlKind → Bool
  | .tile => false
  | .vector => true
  | .heatmap => true

/-- An OpenLayers scene layer.  `ref` is an allocation tag modelling
object identity (mutating "the object" mutates every collection entry
holding the same `ref`); `id` is the `'id'` key/value annotation; `style`
is the style value currently applied through `setStyle` (`none` when no
style was ever applied). -/
structure OlLayer where
  ref : Nat
  kind : OlKind
  id : JsVal
  visible : Bool
  style : Option Nat
deriving DecidableEq, Repr

/-- The OpenLayers `View`: center in the engine's working (Web-Mercator)
projection, and zoom. -/
structure OlView where
  center : Int × Int
  zoom : Int
deriving DecidableEq, Repr

/-- The externally owned OpenLayers map: a `View` plus the ordered layer
collection. -/
structure OlMapState where
  view : OlView
  layers : List OlLayer
deriving DecidableEq, Repr

/-- The desired viewport constants: `center` in geographic (lon/lat)
coordinates when present, `zoom` when present as a number
(`typeof mapConstants.zoom === 'number'`). -/
structure MapConstants where
  center : Option (Int × Int)
  zoom : Option Int
deriving DecidableEq, Repr

/-- A write performed on the engine's `View` by `syncOLMap`. -/
inductive ViewWrite where
  | setZoom (z : Int)
  | setCenter (c : Int × Int)
deriving DecidableEq, Repr

/-- One invocation of the external style resolver `getOlLayerStyle`,
recording its two arguments and the `type` of the declarative layer the
call was made for. -/
structure StyleCall where
  desc : Nat
  temp : Bool
  forType : LayerType
deriving DecidableEq, Repr

/-- The error thrown by `createCorrespondingOLLayer`
(`throw new Error('Cannot create corresponding OL layer')`). -/
inductive CreateError where
  | unsupportedLayerType
deriving DecidableEq, Repr

/-- One element of the `layersWithOl` list built by
`syncLayerInitialization`: `{ layer, olLayer }`. -/
structure LayerPair where
  layer : Layer
  olLayer : OlLayer
deriving DecidableEq, Repr

/-- The external collaborators of the reconciler: the style resolver
`getOlLayerStyle` and the two directions of `ol.proj.transform` between
the working projection and WGS-84. -/
structure SyncConfig where
  resolveStyle : Nat → Bool → Nat
  toLonLat : Int × Int → Int × Int
  fromLonLat : Int × Int → Int × Int

/- ----------------------------------------------------------------------
Layer-specific logic (`convertTmsLayersToOl`,
`generatePlaceHolderLayerForGeohashGrid`, `convertVectorLayersToOl`,
`createCorrespondingOLLayer`).  Each converter allocates a new scene
layer; `fresh` is the allocation tag handed to the new object.  The
converters leave the `'id'` annotation unset (`undefined`);
`createCorrespondingOLLayer` sets it afterwards (`olLayer.set('id', ...)`).
---------------------------------------------------------------------- -/

/-- `convertTmsLayersToOl`: a tile layer sourced from the descriptor URL,
with `visible` applied. -/
def convertTmsLayersToOl (fresh : Nat) (layer : Layer) : OlLayer :=
  { ref := fresh, kind := .tile, id := .undefined, visible := layer.visible, style := none }

/-- `generatePlaceHolderLayerForGeohashGrid`: a heatmap placeholder layer,
with `visible` applied and no style resolution. -/
def generatePlaceHolderLayerForGeohashGrid (fresh : Nat) (layer : Layer) : OlLayer :=
  { ref := fresh, kind := .heatmap, id := .undefined, visible := layer.visible, style := none }

/-- `convertVectorLayersToOl`: a vector layer with `visible` applied and
style resolved through `getOlLayerStyle(layer.getCurrentStyle(), layer.isTemporary())`;
the second component records that resolver invocation. -/
def convertVectorLayersToOl (cfg : SyncConfig) (fresh : Nat) (layer : Layer) :
    OlLayer × List StyleCall :=
  ({ ref := fresh, kind := .vector, id := .undefined, visible := layer.visible,
     style := some (cfg.resolveStyle layer.style layer.temporary) },
   [{ desc := layer.style, temp := layer.temporary, forType := layer.type }])

/-- `createCorrespondingOLLayer`: dispatch on `layer.getType()`, throw on
any unknown tag, and annotate the created scene layer with
`olLayer.set('id', layer.getId())`. -/
def createCorrespondingOLLayer (cfg : SyncConfig) (fresh : Nat) (layer : Layer) :
    Except CreateError (OlLayer × List StyleCall) :=
  match layer.type with
  | .TILE => .ok ({ convertTmsLayersToOl fresh layer with id := layer.id }, [])
  | .VECTOR =>
      let created := convertVectorLayersToOl cfg fresh layer
      .ok ({ created.1 with id := layer.id }, created.2)
  | .GEOHASH_GRID =>
      .ok ({ generatePlaceHolderLayerForGeohashGrid fresh layer with id := layer.id }, [])
  | .UNKNOWN _ => .error .unsupportedLayerType

/- ----------------------------------------------------------------------
OpenLayers helper functions over the layer collection.
---------------------------------------------------------------------- -/

/-- One entry of `getLayersIds`: `layer.get('id') || []` — the raw id when
truthy, otherwise a freshly allocated empty array. -/
def jsIdOrArr (l : OlLayer) : JsVal :=
  if truthy l.id then l.id else .freshArr

/-- `getLayersIds` over a collection of real layer objects. -/
def getLayersIds (layers : List OlLayer) : List JsVal :=
  layers.map jsIdOrArr

/-- During `updateMapLayerOrder`'s recursion the collection can in
principle hold `undefined` entries (an out-of-range `removeAt` returns
`undefined` and `insertAt` stores it), so the live collection is a list of
`Option OlLayer`. -/
abbrev LiveColl := List (Option OlLayer)

/-- Collapse a live collection all of whose entries are real layers;
`none` when some entry is `undefined`. -/
def collectLayers : LiveColl → Option (List OlLayer)
  | [] => some []
  | none :: _ => none
  | some l :: rest =>
      match collectLayers rest with
      | none => none
      | some ls => some (l :: ls)

/-- `getLayersIds` over the live collection; reading `layer.get('id')`
from an `undefined` entry throws (`none`). -/
def getLayersIdsLive : LiveColl → Option (List JsVal)
  | [] => some []
  | none :: _ => none
  | some l :: rest =>
      match getLayersIdsLive rest with
      | none => none
      | some ids => some (jsIdOrArr l :: ids)

/-- `Array.prototype.findIndex`: index of the first match, `-1` if none. -/
def jsFindIndex (p : α → Bool) : List α → Int
  | [] => -1
  | a :: rest =>
      if p a then 0
      else
        let r := jsFindIndex p rest
        if r < 0 then -1 else r + 1

/-- The comparison `oldLayerOrder[idx] !== newOrderId` in
`updateMapLayerOrder`'s scan (an out-of-range index reads `undefined`). -/
def mismatchAt (oldOrder : List JsVal) (idx : Nat) (newOrderId : JsVal) : Bool :=
  ! strictEq (optToJs oldOrder[idx]?) newOrderId

/-- The scan `newLayerOrder.some((newOrderId, idx) => ...)`: the first
index of `newLayerOrder` at which the two orders disagree. -/
def findMismatchAux (oldOrder : List JsVal) : Nat → List JsVal → Option Nat
  | _, [] => none
  | idx, newOrderId :: rest =>
      if mismatchAt oldOrder idx newOrderId then some idx
      else findMismatchAux oldOrder (idx + 1) rest

def findMismatch (oldOrder newOrder : List JsVal) : Option Nat :=
  findMismatchAux oldOrder 0 newOrder

/-- `ol.Collection.removeAt(i)` = `array.splice(i, 1)`: drops the element
at `i` when in range, otherwise leaves the list unchanged. -/
def collRemoveAt (l : List α) (i : Nat) : List α :=
  l.take i ++ l.drop (i + 1)

/-- The effective start index of `array.splice(i, ...)`:
`i < 0 ? max(len + i, 0) : min(i, len)`. -/
def spliceStart (len : Nat) (i : Int) : Nat :=
  if i < 0 then ((len : Int) + i).toNat else min i.toNat len

/-- `ol.Collection.insertAt(i, x)` = `array.splice(i, 0, x)`. -/
def collInsertAt (l : List α) (i : Int) (x : α) : List α :=
  let s := spliceStart l.length i
  l.take s ++ [x] ++ l.drop s

/-- One relocation of `updateMapLayerOrder`: at the first mismatching
index, `removeAt` there, find the moved id's index in the desired order,
and `insertAt` it there.  `none` when the two orders already agree over
`newOrder`'s indices (the `.some` scan returns without relocating). -/
def reorderStep (mapLayers : LiveColl) (oldOrder newOrder : List JsVal) :
    Option LiveColl :=
  match findMismatch oldOrder newOrder with
  | none => none
  | some idx =>
      let layerToMove : Option OlLayer :=
        match mapLayers[idx]? with
        | some v => v
        | none => none
      let rest := collRemoveAt mapLayers idx
      let newIdx : Int :=
        jsFindIndex (fun id => strictEq id (optToJs oldOrder[idx]?)) newOrder
      some (collInsertAt rest newIdx layerToMove)

/-- Result of the (fuel-indexed) `updateMapLayerOrder` recursion. -/
inductive ReorderResult where
  | ok (coll : LiveColl)
  | typeError
deriving DecidableEq, Repr

/-- `updateMapLayerOrder(mapLayers, oldLayerOrder, newLayerOrder)`: scan,
relocate, re-read the ids (`getLayersIds(mapLayers)`, which throws when an
`undefined` entry was inserted — `typeError`), recurse.  The source
recursion is unbounded; `fuel` bounds the modelled depth and `none` means
the recursion did not finish within `fuel` relocations. -/
def updateMapLayerOrder (fuel : Nat) (mapLayers : LiveColl)
    (oldOrder newOrder : List JsVal) : Option ReorderResult :=
  match fuel with
  | 0 => none
  | fuel + 1 =>
      match reorderStep mapLayers oldOrder newOrder with
      | none => some (.ok mapLayers)
      | some coll =>
          match getLayersIdsLive coll with
          | none => some .typeError
          | some oldOrder => updateMapLayerOrder fuel coll oldOrder newOrder

/-- Truthiness of an `Array.prototype.find` result (`undefined` when no
element matched, the found element otherwise). -/
def jsTruthyOpt : Option JsVal → Bool
  | none => false
  | some v => truthy v

/-- `addLayers(map, newLayer, currentLayersIds)`: append the layer unless
`currentLayersIds.find(layerId => layerId === newLayer.get('id'))` is
truthy. -/
def addLayers (map : OlMapState) (newLayer : OlLayer)
    (currentLayersIds : List JsVal) : OlMapState :=
  if jsTruthyOpt (currentLayersIds.find? (fun layerId => strictEq layerId newLayer.id)) then
    map
  else
    { map with layers := map.layers ++ [newLayer] }

/-- The `layersToRemove` index list of `removeLayers`: positions of the
collection whose id has no truthy `find` match in `updatedLayersIds`. -/
def removalIndices (existingMapLayers : List OlLayer)
    (updatedLayersIds : List JsVal) : List Nat :=
  existingMapLayers.enum.filterMap (fun p =>
    if jsTruthyOpt (updatedLayersIds.find? (fun id => strictEq id p.2.id)) then
      none
    else
      some p.1)

/-- `removeLayers(map, existingMapLayers, updatedLayersIds)`: collect the
indices of layers to remove from the pre-removal collection, then
`removeAt` each index in turn against the live (shrinking) collection. -/
def removeLayers (map : OlMapState) (updatedLayersIds : List JsVal) : OlMapState :=
  { map with
    layers := (removalIndices map.layers updatedLayersIds).foldl collRemoveAt map.layers }

/-- `mutateRef layers r f`: in-place mutation of the scene-layer object
tagged `r` — every collection entry holding that object changes. -/
def mutateRef (layers : List OlLayer) (r : Nat) (f : OlLayer → OlLayer) : List OlLayer :=
  layers.map (fun l => if l.ref = r then f l else l)

/-- `updateFillAndOutlineStyle(olLayer, layer)`: resolve the style
(unconditionally invoking the resolver) and apply it when the object
exposes `setStyle`. -/
def updateFillAndOutlineStyle (cfg : SyncConfig) (map : OlMapState) (p : LayerPair) :
    OlMapState × List StyleCall :=
  let appliedStyle := cfg.resolveStyle p.layer.style p.layer.temporary
  let map :=
    if hasSetStyle p.olLayer.kind then
      { map with
        layers := mutateRef map.layers p.olLayer.ref (fun l => { l with style := some appliedStyle }) }
    else map
  (map, [{ desc := p.layer.style, temp := p.layer.temporary, forType := p.layer.type }])

/-- One iteration of the adds-and-updates `forEach` of `syncOLState`:
`addLayers`, `olLayer.setVisible(layer.isVisible())`, and — only for
`LAYER_TYPE.VECTOR` — `updateFillAndOutlineStyle`. -/
def applyAddAndUpdate (cfg : SyncConfig) (layersIds : List JsVal)
    (map : OlMapState) (p : LayerPair) : OlMapState × List StyleCall :=
  let map := addLayers map p.olLayer layersIds
  let map :=
    { map with
      layers := mutateRef map.layers p.olLayer.ref (fun l => { l with visible := p.layer.visible }) }
  if p.layer.type = LayerType.VECTOR then
    updateFillAndOutlineStyle cfg map p
  else
    (map, [])

/-- The whole adds-and-updates `forEach` over `layersWithOl`, collecting
the style-resolver invocations it makes. -/
def applyPairs (cfg : SyncConfig) (layersIds : List JsVal) :
    OlMapState → List LayerPair → OlMapState × List StyleCall
  | map, [] => (map, [])
  | map, p :: rest =>
      let step := applyAddAndUpdate cfg layersIds map p
      let next := applyPairs cfg layersIds step.1 rest
      (next.1, step.2 ++ next.2)

/- ----------------------------------------------------------------------
Selectors.
---------------------------------------------------------------------- -/

/-- `syncOLMap`: one-directional view synchronization.  Returns the map
together with the list of `View` writes performed. -/
def syncOLMap (cfg : SyncConfig) (mapConstants : MapConstants) (olMap : OlMapState) :
    OlMapState × List ViewWrite :=
  let center := olMap.view.center
  let zoom := olMap.view.zoom
  let centerInLonLat := cfg.toLonLat center
  let zoomStep : OlMapState × List ViewWrite :=
    match mapConstants.zoom with
    | some z =>
        if z ≠ zoom then
          ({ olMap with view := { olMap.view with zoom := z } }, [ViewWrite.setZoom z])
        else (olMap, [])
    | none => (olMap, [])
  match mapConstants.center with
  | some c =>
      if c ≠ centerInLonLat then
        let centerInWorldRef := cfg.fromLonLat c
        ({ zoomStep.1 with view := { zoomStep.1.view with center := centerInWorldRef } },
         zoomStep.2 ++ [ViewWrite.setCenter centerInWorldRef])
      else zoomStep
  | none => zoomStep

/-- The `layerList.map(...)` body of `syncLayerInitialization`: look each
desired layer's id up in the current collection, reuse the found scene
layer or create one.  Threads the allocation counter and collects the
creation-time style-resolver invocations. -/
def syncLayerInitializationAux (cfg : SyncConfig) (olLayerArray : List OlLayer) :
    List Layer → Nat → Except CreateError (List LayerPair × Nat × List StyleCall)
  | [], fresh => .ok ([], fresh, [])
  | layer :: rest, fresh =>
      match olLayerArray.find? (fun olLayer => strictEq olLayer.id layer.id) with
      | some olLayer =>
          match syncLayerInitializationAux cfg olLayerArray rest fresh with
          | .error e => .error e
          | .ok (pairs, fresh', calls) =>
              .ok ({ layer := layer, olLayer := olLayer } :: pairs, fresh', calls)
      | none =>
          match createCorrespondingOLLayer cfg fresh layer with
          | .error e => .error e
          | .ok (olLayer, calls0) =>
              match syncLayerInitializationAux cfg olLayerArray rest (fresh + 1) with
              | .error e => .error e
              | .ok (pairs, fresh', calls) =>
                  .ok ({ layer := layer, olLayer := olLayer } :: pairs, fresh',
                       calls0 ++ calls)

/-- `syncLayerInitialization`: reads `olMap.getLayers().getArray()` and
builds the pair list; the map itself is passed through untouched (the
selector performs no collection mutation). -/
def syncLayerInitialization (cfg : SyncConfig) (olMap : OlMapState)
    (layerList : List Layer) (fresh : Nat) :
    Except CreateError (OlMapState × List LayerPair × Nat × List StyleCall) :=
  match syncLayerInitializationAux cfg olMap.layers layerList fresh with
  | .error e => .error e
  | .ok (pairs, fresh', calls) => .ok (olMap, pairs, fresh', calls)

/-- Failure modes of a full `syncOLState` pass. -/
inductive SyncError where
  | create (e : CreateError)
  | reorderTypeError
  | undefinedLayer
deriving DecidableEq, Repr

/-- Observable outcome of one full `syncOLState` pass. -/
structure SyncResult where
  map : OlMapState
  viewWrites : List ViewWrite
  creationCalls : List StyleCall
  updateCalls : List StyleCall
  fresh : Nat
deriving DecidableEq, Repr

/-- `syncOLState`: view sync, layer-pair initialization, adds and
updates, removals, order reconciliation (`oldLayerIdsOrder !==
newLayerIdsOrder` is a reference comparison on two freshly built arrays
and therefore always true, so the reorder step always runs).  `none`
means `updateMapLayerOrder` did not finish within `fuel` relocations. -/
def syncOLState (cfg : SyncConfig) (fuel : Nat) (mapConstants : MapConstants)
    (layerList : List Layer) (map0 : OlMapState) (fresh : Nat) :
    Option (Except SyncError SyncResult) :=
  let viewStep := syncOLMap cfg mapConstants map0
  match syncLayerInitialization cfg viewStep.1 layerList fresh with
  | .error e => some (.error (.create e))
  | .ok (map1, pairs, fresh', creationCalls) =>
      let layersIds := getLayersIds map1.layers
      let updateStep := applyPairs cfg layersIds map1 pairs
      let newLayerIdsOrder := pairs.map (fun p => p.layer.id)
      let map3 := removeLayers updateStep.1 newLayerIdsOrder
      let oldLayerIdsOrder := getLayersIds map3.layers
      match updateMapLayerOrder fuel (map3.layers.map some) oldLayerIdsOrder newLayerIdsOrder with
      | none => none
      | some .typeError => some (.error .reorderTypeError)
      | some (.ok coll) =>
          match collectLayers coll with
          | none => some (.error .undefinedLayer)
          | some finalLayers =>
              some (.ok
                { map := { map3 with layers := finalLayers },
                  viewWrites := viewStep.2,
                  creationCalls := creationCalls,
                  updateCalls := updateStep.2,
                  fresh := fresh' })

/-- Two successive `syncOLState` passes with identical inputs; the second
pass starts from the engine state and allocation counter the first one
left behind. -/
def syncTwice (cfg : SyncConfig) (fuel : Nat) (mapConstants : MapConstants)
    (layerList : List Layer) (map0 : OlMapState) (fresh : Nat) :
    Option (Except SyncError SyncResult) :=
  match syncOLState cfg fuel mapConstants layerList map0 fresh with
  | some (.ok r) => syncOLState cfg fuel mapConstants layerList r.map r.fresh
  | other => other

/-- Projection of a sync outcome to the engine's id sequence. -/
def resultIds (o : Option (Except SyncError SyncResult)) :
    Option (Except SyncError (List JsVal)) :=
  o.map (fun e => e.map (fun r => r.map.layers.map (fun l => l.id)))

/- ----------------------------------------------------------------------
A potential for the order-reconciliation recursion.  `phi` weights each
mismatching position `k` with `2 ^ k`; a relocation at the first
mismatching index `idx` fixes position `t > idx` (weight `2 ^ t`) at the
price of disturbing only the positions in `[idx, t)` (total weight
`2 ^ t - 2 ^ idx`), so `phi` strictly decreases.
---------------------------------------------------------------------- -/

def phi (oldO newO : List JsVal) : Nat :=
  ∑ k ∈ Finset.range newO.length, if oldO[k]? = newO[k]? then 0 else 2 ^ k

/- ----------------------------------------------------------------------
Concrete fixtures used by counterexamples and witnesses.
---------------------------------------------------------------------- -/

/-- Identity projections and the identity style resolver, for concrete
evaluation. -/
def cfgId : SyncConfig :=
  { resolveStyle := fun d _ => d, toLonLat := id, fromLonLat := id }

/-- A visible tile scene layer with a numeric id annotation. -/
def tileSceneNum (n : Int) (r : Nat) : OlLayer :=
  { ref := r, kind := .tile, id := .num n, visible := true, style := none }

/-- A declarative TILE layer with a numeric id. -/
def tileDescNum (n : Int) : Layer :=
  { id := .num n, type := .TILE, visible := true, temporary := false, style := 0, source := 0 }

/-- An engine state with a default view and the given layer collection. -/
def mapWith (ls : List OlLayer) : OlMapState :=
  { view := { center := (0, 0), zoom := 0 }, layers := ls }

def mcEmpty : MapConstants := { center := none, zoom := none }

/-- A 4-element rotated collection (ids 2,3,4,1) to be reordered into
ids 1,2,3,4. -/
def rotColl : List OlLayer :=
  [tileSceneNum 2 0, tileSceneNum 3 1, tileSceneNum 4 2, tileSceneNum 1 3]

def rotTarget : List JsVal := [.num 1, .num 2, .num 3, .num 4]

/-- Projection of a reorder outcome to the collection's id sequence. -/
def reorderIds : Option ReorderResult → Option (Option (List JsVal))
  | none => none
  | some .typeError => some none
  | some (.ok coll) => some (getLayersIdsLive coll)

/-- The non-permutation reorder input: the collection holds one layer
with id 1, the desired order is the single id 2. -/
def loopLayer : OlLayer :=
  { ref := 0, kind := .tile, id := .num 1, visible := true, style := none }

def tilePair : LayerPair := { layer := tileDescNum 1, olLayer := tileSceneNum 1 0 }

/-- The engine holds scene layers with ids 1, 2, 3 (in that order). -/
def engine123 : OlMapState :=
  mapWith [tileSceneNum 1 0, tileSceneNum 2 1, tileSceneNum 3 2]

/-- The desired layer list shrinks to the single id 1. -/
def keepOne : List Layer := [tileDescNum 1]

end GisSync

namespace GisSync

/- ----------------------------------------------------------------------
Basic facts about the JavaScript value model.
---------------------------------------------------------------------- -/

theorem strictEq_eq_true_iff {a b : JsVal} (hb : b ≠ .freshArr) :
    strictEq a b = true ↔ a = b := by
  cases a <;> cases b <;> simp_all [strictEq]

theorem strictEq_self {v : JsVal} (h : v ≠ .freshArr) : strictEq v v = true :=
  (strictEq_eq_true_iff h).mpr rfl

theorem regular_ne_freshArr {v : JsVal} (h : regular v = true) : v ≠ .freshArr := by
  cases v <;> simp_all [regular]

theorem regular_truthy {v : JsVal} (h : regular v = true) : truthy v = true := by
  cases v <;> simp_all [regular, truthy]

theorem getLayersIds_eq_map_id {l : List OlLayer}
    (h : ∀ x ∈ l, truthy x.id = true) :
    getLayersIds l = l.map (fun ol => ol.id) := by
  unfold getLayersIds
  apply List.map_congr_left
  intro x hx
  simp [jsIdOrArr, h x hx]

theorem getLayersIdsLive_map_some (l : List OlLayer) :
    getLayersIdsLive (l.map some) = some (getLayersIds l) := by
  induction l with
  | nil => rfl
  | cons a t ih =>
      simp only [List.map_cons, getLayersIdsLive, ih, getLayersIds, List.map_cons]

/- ----------------------------------------------------------------------
Characterizations of the scanning helpers.
---------------------------------------------------------------------- -/

theorem findMismatchAux_none_iff {oldO : List JsVal} :
    ∀ (newO : List JsVal) (k : Nat),
      findMismatchAux oldO k newO = none ↔
        ∀ j v, newO[j]? = some v → mismatchAt oldO (k + j) v = false := by
  intro newO
  induction newO with
  | nil => intro k; simp [findMismatchAux]
  | cons a t ih =>
      intro k
      by_cases hm : mismatchAt oldO k a = true
      · simp only [findMismatchAux, hm, if_pos]
        constructor
        · intro h; exact absurd h (by simp)
        · intro h
          have := h 0 a (by simp)
          simp at this
          rw [this] at hm
          exact absurd hm (by simp)
      · have hm' : mismatchAt oldO k a = false := by
          cases h : mismatchAt oldO k a
          · rfl
          · exact absurd h hm
        simp only [findMismatchAux, hm', Bool.false_eq_true, if_neg, if_false]
        rw [ih (k + 1)]
        constructor
        · intro h j v hj
          match j with
          | 0 =>
              simp at hj
              subst hj
              simpa using hm'
          | j + 1 =>
              have := h j v (by simpa using hj)
              simpa [Nat.add_assoc, Nat.add_comm 1 j] using this
        · intro h j v hj
          have := h (j + 1) v (by simpa using hj)
          simpa [Nat.add_assoc, Nat.add_comm 1 j] using this

theorem findMismatchAux_some_spec {oldO : List JsVal} :
    ∀ (newO : List JsVal) (k idx : Nat),
      findMismatchAux oldO k newO = some idx →
      ∃ j, j < newO.length ∧ idx = k + j ∧
        (∀ v, newO[j]? = some v → mismatchAt oldO idx v = true) ∧
        (∀ j' v, j' < j → newO[j']? = some v → mismatchAt oldO (k + j') v = false) := by
  intro newO
  induction newO with
  | nil => intro k idx h; simp [findMismatchAux] at h
  | cons a t ih =>
      intro k idx h
      by_cases hm : mismatchAt oldO k a = true
      · simp only [findMismatchAux, hm, if_pos, Option.some.injEq] at h
        subst h
        refine ⟨0, by simp, by simp, ?_, ?_⟩
        · intro v hv
          simp at hv
          subst hv
          simpa using hm
        · intro j' v hj' hv
          omega
      · have hm' : mismatchAt oldO k a = false := by
          cases hh : mismatchAt oldO k a
          · rfl
          · exact absurd hh hm
        simp only [findMismatchAux, hm', Bool.false_eq_true, if_false] at h
        obtain ⟨j, hj, hidx, hmj, hpre⟩ := ih (k + 1) idx h
        refine ⟨j + 1, by simpa using Nat.succ_lt_succ hj, by omega, ?_, ?_⟩
        · intro v hv
          exact hmj v (by simpa using hv)
        · intro j' v hj' hv
          match j' with
          | 0 =>
              simp at hv
              subst hv
              simpa using hm'
          | j' + 1 =>
              have := hpre j' v (by omega) (by simpa using hv)
              simpa [Nat.add_assoc, Nat.add_comm 1 j'] using this

theorem jsFindIndex_spec (p : α → Bool) :
    ∀ l : List α,
      (jsFindIndex p l = -1 ∧ ∀ a ∈ l, p a = false) ∨
      (∃ t : Nat, jsFindIndex p l = (t : Int) ∧ t < l.length ∧
        (∀ v, l[t]? = some v → p v = true) ∧
        (∀ j v, j < t → l[j]? = some v → p v = false)) := by
  intro l
  induction l with
  | nil => left; simp [jsFindIndex]
  | cons a t ih =>
      by_cases hp : p a = true
      · right
        refine ⟨0, by simp [jsFindIndex, hp], by simp, ?_, ?_⟩
        · intro v hv; simp at hv; subst hv; exact hp
        · intro j v hj hv; omega
      · have hp' : p a = false := by
          cases hh : p a
          · rfl
          · exact absurd hh hp
        rcases ih with ⟨hneg, hall⟩ | ⟨s, hs, hslen, hsval, hspre⟩
        · left
          constructor
          · simp [jsFindIndex, hp', hneg]
          · intro x hx
            rcases List.mem_cons.mp hx with h | h
            · subst h; exact hp'
            · exact hall x h
        · right
          refine ⟨s + 1, ?_, by simpa using Nat.succ_lt_succ hslen, ?_, ?_⟩
          · have hnn : ¬ ((s : Int) < 0) := by omega
            simp only [jsFindIndex, hp', Bool.false_eq_true, if_false, hs, hnn]
            push_cast
            ring
          · intro v hv
            exact hsval v (by simpa using hv)
          · intro j v hj hv
            match j with
            | 0 =>
                simp at hv
                subst hv
                exact hp'
            | j + 1 =>
                exact hspre j v (by omega) (by simpa using hv)

end GisSync

namespace GisSync

/- ----------------------------------------------------------------------
Collection arithmetic: `removeAt` / `insertAt`.
---------------------------------------------------------------------- -/

theorem collRemoveAt_length {l : List α} {i : Nat} (h : i < l.length) :
    (collRemoveAt l i).length = l.length - 1 := by
  simp [collRemoveAt]
  omega

theorem collRemoveAt_getElem? {l : List α} {i : Nat} (h : i < l.length) (j : Nat) :
    (collRemoveAt l i)[j]? = if j < i then l[j]? else l[j + 1]? := by
  unfold collRemoveAt
  by_cases hj : j < i
  · rw [List.getElem?_append_left (by simp; omega), List.getElem?_take_of_lt hj, if_pos hj]
  · rw [List.getElem?_append_right (by simp; omega), if_neg hj, List.getElem?_drop]
    congr 1
    simp
    omega

theorem collRemoveAt_map (f : α → β) (l : List α) (i : Nat) :
    collRemoveAt (l.map f) i = (collRemoveAt l i).map f := by
  simp [collRemoveAt, List.map_take, List.map_drop]

theorem collInsertAt_map (f : α → β) (l : List α) (i : Int) (x : α) :
    collInsertAt (l.map f) i (f x) = (collInsertAt l i x).map f := by
  simp [collInsertAt, spliceStart, List.map_take, List.map_drop]

theorem collInsertAt_natCast_getElem? {l : List α} {t : Nat} (ht : t ≤ l.length)
    (x : α) (j : Nat) :
    (collInsertAt l (t : Int) x)[j]? =
      if j < t then l[j]? else if j = t then some x else l[j - 1]? := by
  have hs : spliceStart l.length (t : Int) = t := by
    unfold spliceStart
    rw [if_neg (by omega)]
    simp only [Int.toNat_natCast]
    omega
  unfold collInsertAt
  rw [hs]
  have hlt : (l.take t).length = t := by simp; omega
  by_cases hj : j < t
  · rw [List.getElem?_append_left (by simp [hlt]; omega),
      List.getElem?_append_left (by omega), List.getElem?_take_of_lt hj,
      if_pos hj]
  · by_cases hjt : j = t
    · subst hjt
      rw [List.getElem?_append_left (by simp [hlt]),
        List.getElem?_append_right (by omega)]
      simp [hlt]
    · rw [List.getElem?_append_right (by simp [hlt]; omega), List.getElem?_drop,
        if_neg hj, if_neg hjt]
      congr 1
      simp [hlt]
      omega

/-- Pointwise description of the relocation `remove at idx, insert at t`
(with `idx < t`): the prefix below `idx` is untouched, positions
`idx ≤ k < t` shift left by one, position `t` receives the moved element,
and positions above `t` are untouched. -/
theorem spliced_getElem? {l : List α} {idx t : Nat} {x : α}
    (hidx : idx < l.length) (ht : t < l.length) (hlt : idx < t) (j : Nat) :
    (collInsertAt (collRemoveAt l idx) (t : Int) x)[j]? =
      if j < idx then l[j]? else if j < t then l[j + 1]?
      else if j = t then some x else l[j]? := by
  have hrl : (collRemoveAt l idx).length = l.length - 1 := collRemoveAt_length hidx
  have htr : t ≤ (collRemoveAt l idx).length := by omega
  rw [collInsertAt_natCast_getElem? htr]
  by_cases hj : j < t
  · rw [if_pos hj, collRemoveAt_getElem? hidx]
    by_cases hji : j < idx
    · simp [hji, hj]
    · simp [hji, hj]
  · by_cases hjt : j = t
    · rw [if_neg hj, if_pos hjt, if_neg (by omega), if_neg (by omega), if_pos hjt]
    · rw [if_neg hj, if_neg hjt, collRemoveAt_getElem? hidx]
      have h1 : ¬ j - 1 < idx := by omega
      have h2 : ¬ j < idx := by omega
      have h3 : j - 1 + 1 = j := by omega
      simp [h1, h2, h3, hj, hjt]

theorem collInsertAt_perm (l : List α) (i : Int) (x : α) :
    (collInsertAt l i x).Perm (x :: l) := by
  unfold collInsertAt
  have h1 : List.take (spliceStart l.length i) l ++ [x] ++
        List.drop (spliceStart l.length i) l
      = List.take (spliceStart l.length i) l ++
        x :: List.drop (spliceStart l.length i) l := by
    simp
  have h2 : (List.take (spliceStart l.length i) l ++
        x :: List.drop (spliceStart l.length i) l).Perm
      (x :: (List.take (spliceStart l.length i) l ++
        List.drop (spliceStart l.length i) l)) := List.perm_middle
  rw [List.take_append_drop] at h2
  rw [h1]
  exact h2

theorem collRemoveAt_cons_perm {l : List α} {i : Nat} {x : α} (h : l[i]? = some x) :
    l.Perm (x :: collRemoveAt l i) := by
  have hi : i < l.length := by
    by_contra hcon
    rw [List.getElem?_eq_none (by omega)] at h
    exact absurd h (by simp)
  have hdrop : List.drop i l = x :: List.drop (i + 1) l := by
    rw [List.drop_eq_getElem_cons hi]
    rw [List.getElem?_eq_getElem hi] at h
    simp at h
    rw [h]
  have h2 : (List.take i l ++ x :: List.drop (i + 1) l).Perm
      (x :: (List.take i l ++ List.drop (i + 1) l)) := List.perm_middle
  have h3 : l = List.take i l ++ x :: List.drop (i + 1) l := by
    conv_lhs => rw [← List.take_append_drop i l]
    rw [hdrop]
  rw [← h3] at h2
  unfold collRemoveAt
  exact h2

end GisSync

namespace GisSync

theorem sum_two_pow_Ico {a b : Nat} (h : a ≤ b) :
    (∑ k ∈ Finset.Ico a b, 2 ^ k) + 2 ^ a = 2 ^ b := by
  induction b with
  | zero =>
      have : a = 0 := by omega
      subst this
      simp
  | succ b ih =>
      by_cases hab : a = b + 1
      · subst hab
        simp
      · have hab' : a ≤ b := by omega
        rw [Finset.sum_Ico_succ_top hab']
        have := ih hab'
        rw [pow_succ]
        omega

theorem phi_lt_two_pow (oldO newO : List JsVal) :
    phi oldO newO < 2 ^ newO.length := by
  unfold phi
  have h1 : (∑ k ∈ Finset.range newO.length, if oldO[k]? = newO[k]? then 0 else 2 ^ k)
      ≤ ∑ k ∈ Finset.range newO.length, 2 ^ k := by
    apply Finset.sum_le_sum
    intro k _
    by_cases h : oldO[k]? = newO[k]?
    · simp [h]
    · simp [h]
  have h2 : (∑ k ∈ Finset.Ico 0 newO.length, 2 ^ k) + 2 ^ 0 = 2 ^ newO.length :=
    sum_two_pow_Ico (Nat.zero_le _)
  rw [← Finset.range_eq_Ico] at h2
  omega


theorem phi_step_lt {oldO newO : List JsVal} {idx t : Nat} {x : JsVal}
    (hidx : idx < newO.length) (ht : t < newO.length) (hlt : idx < t)
    (_hx : oldO[idx]? = some x)
    (hnewt : newO[t]? = some x)
    (hmismatch : oldO[idx]? ≠ newO[idx]?)
    (holdt : oldO[t]? ≠ some x)
    (hlen : oldO.length = newO.length) :
    phi (collInsertAt (collRemoveAt oldO idx) (t : Int) x) newO < phi oldO newO := by
  have hidxo : idx < oldO.length := by omega
  have hto : t < oldO.length := by omega
  have hget : ∀ j : Nat, (collInsertAt (collRemoveAt oldO idx) (t : Int) x)[j]? =
      if j < idx then oldO[j]? else if j < t then oldO[j + 1]?
      else if j = t then some x else oldO[j]? := fun j =>
    spliced_getElem? hidxo hto hlt j
  have hsplit : ∀ g : Nat → Nat,
      ∑ k ∈ Finset.range newO.length, g k =
        (∑ k ∈ Finset.Ico 0 idx, g k) + ((∑ k ∈ Finset.Ico idx t, g k) +
          (g t + ∑ k ∈ Finset.Ico (t + 1) newO.length, g k)) := by
    intro g
    rw [Finset.range_eq_Ico]
    rw [← Finset.sum_Ico_consecutive g (by omega : (0:Nat) ≤ idx) (by omega : idx ≤ newO.length)]
    rw [← Finset.sum_Ico_consecutive g (by omega : idx ≤ t) (by omega : t ≤ newO.length)]
    rw [← Finset.sum_eq_sum_Ico_succ_bot (by omega : t < newO.length)]
  have hA : (∑ k ∈ Finset.Ico 0 idx,
        if (collInsertAt (collRemoveAt oldO idx) (t : Int) x)[k]? = newO[k]? then 0 else 2 ^ k)
      = ∑ k ∈ Finset.Ico 0 idx, if oldO[k]? = newO[k]? then 0 else 2 ^ k := by
    apply Finset.sum_congr rfl
    intro k hk
    simp only [Finset.mem_Ico] at hk
    rw [hget k, if_pos hk.2]
  have hB : (∑ k ∈ Finset.Ico (t + 1) newO.length,
        if (collInsertAt (collRemoveAt oldO idx) (t : Int) x)[k]? = newO[k]? then 0 else 2 ^ k)
      = ∑ k ∈ Finset.Ico (t + 1) newO.length, if oldO[k]? = newO[k]? then 0 else 2 ^ k := by
    apply Finset.sum_congr rfl
    intro k hk
    simp only [Finset.mem_Ico] at hk
    rw [hget k, if_neg (show ¬ k < idx by omega), if_neg (show ¬ k < t by omega),
      if_neg (show ¬ k = t by omega)]
  have hct' : (if (collInsertAt (collRemoveAt oldO idx) (t : Int) x)[t]? = newO[t]?
        then 0 else 2 ^ t) = 0 := by
    rw [hget t, if_neg (show ¬ t < idx by omega), if_neg (show ¬ t < t by omega),
      if_pos rfl, hnewt, if_pos rfl]
  have hct : (if oldO[t]? = newO[t]? then 0 else 2 ^ t) = 2 ^ t := by
    rw [if_neg (show oldO[t]? ≠ newO[t]? by rw [hnewt]; exact holdt)]
  have hM' : (∑ k ∈ Finset.Ico idx t,
        if (collInsertAt (collRemoveAt oldO idx) (t : Int) x)[k]? = newO[k]? then 0 else 2 ^ k)
      ≤ ∑ k ∈ Finset.Ico idx t, 2 ^ k := by
    apply Finset.sum_le_sum
    intro k _
    by_cases h : (collInsertAt (collRemoveAt oldO idx) (t : Int) x)[k]? = newO[k]?
    · rw [if_pos h]
      exact Nat.zero_le _
    · rw [if_neg h]
  have hgeo : (∑ k ∈ Finset.Ico idx t, 2 ^ k) + 2 ^ idx = 2 ^ t :=
    sum_two_pow_Ico (by omega)
  have hcidx : (if oldO[idx]? = newO[idx]? then 0 else 2 ^ idx) = 2 ^ idx := by
    rw [if_neg hmismatch]
  have hMo : 2 ^ idx ≤ ∑ k ∈ Finset.Ico idx t, if oldO[k]? = newO[k]? then 0 else 2 ^ k := by
    rw [← hcidx]
    exact @Finset.single_le_sum Nat Nat _
      (fun k => if oldO[k]? = newO[k]? then 0 else 2 ^ k)
      (Finset.Ico idx t) (fun k _ => Nat.zero_le _) idx
      (by simp only [Finset.mem_Ico]; omega)
  have e1 : phi (collInsertAt (collRemoveAt oldO idx) (t : Int) x) newO =
      (∑ k ∈ Finset.Ico 0 idx, if oldO[k]? = newO[k]? then 0 else 2 ^ k) +
        ((∑ k ∈ Finset.Ico idx t,
          if (collInsertAt (collRemoveAt oldO idx) (t : Int) x)[k]? = newO[k]? then 0 else 2 ^ k) +
          (0 + ∑ k ∈ Finset.Ico (t + 1) newO.length,
            if oldO[k]? = newO[k]? then 0 else 2 ^ k)) := by
    unfold phi
    rw [hsplit (fun k =>
      if (collInsertAt (collRemoveAt oldO idx) (t : Int) x)[k]? = newO[k]? then 0 else 2 ^ k)]
    rw [hA, hB, hct']
  have e2 : phi oldO newO =
      (∑ k ∈ Finset.Ico 0 idx, if oldO[k]? = newO[k]? then 0 else 2 ^ k) +
        ((∑ k ∈ Finset.Ico idx t, if oldO[k]? = newO[k]? then 0 else 2 ^ k) +
          (2 ^ t + ∑ k ∈ Finset.Ico (t + 1) newO.length,
            if oldO[k]? = newO[k]? then 0 else 2 ^ k)) := by
    unfold phi
    rw [hsplit (fun k => if oldO[k]? = newO[k]? then 0 else 2 ^ k)]
    rw [hct]
  have hpow : 0 < 2 ^ idx := Nat.pos_pow_of_pos idx (by omega)
  omega

end GisSync

namespace GisSync

theorem mem_collRemoveAt {l : List α} {i : Nat} {a : α} (h : a ∈ collRemoveAt l i) :
    a ∈ l := by
  unfold collRemoveAt at h
  rcases List.mem_append.mp h with h | h
  · exact List.mem_of_mem_take h
  · exact List.mem_of_mem_drop h

theorem mem_collInsertAt {l : List α} {i : Int} {x a : α}
    (h : a ∈ collInsertAt l i x) : a = x ∨ a ∈ l := by
  have hp := (collInsertAt_perm l i x).mem_iff.mp h
  rcases List.mem_cons.mp hp with h | h
  · exact Or.inl h
  · exact Or.inr h

theorem updateMapLayerOrder_succ (f : Nat) (mapLayers : LiveColl)
    (oldOrder newOrder : List JsVal) :
    updateMapLayerOrder (f + 1) mapLayers oldOrder newOrder =
      match reorderStep mapLayers oldOrder newOrder with
      | none => some (.ok mapLayers)
      | some coll =>
          match getLayersIdsLive coll with
          | none => some .typeError
          | some oldOrder => updateMapLayerOrder f coll oldOrder newOrder := rfl

/-- Termination and correctness of `updateMapLayerOrder` on permutation
inputs with regular, pairwise-distinct ids: with fuel exceeding the
potential `phi` of the initial configuration, the recursion terminates
and the resulting collection carries exactly the desired id sequence. -/
theorem reorder_total (b : Nat) :
    ∀ (l : List OlLayer) (newO : List JsVal) (fuel : Nat),
      (∀ v ∈ newO, regular v = true) → newO.Nodup →
      (l.map (fun ol => ol.id)).Perm newO →
      phi (l.map (fun ol => ol.id)) newO ≤ b → b < fuel →
      ∃ final : List OlLayer,
        updateMapLayerOrder fuel (l.map some) (l.map (fun ol => ol.id)) newO
          = some (.ok (final.map some)) ∧
        final.map (fun ol => ol.id) = newO := by
  induction b using Nat.strong_induction_on with
  | _ b ih =>
    intro l newO fuel hreg hnd hperm hphi hfuel
    have hlen : (l.map (fun ol => ol.id)).length = newO.length := hperm.length_eq
    have holdlen : (l.map (fun ol => ol.id)).length = l.length := by simp
    obtain ⟨f, rfl⟩ : ∃ f, fuel = f + 1 := ⟨fuel - 1, by omega⟩
    have hndold : (l.map (fun ol => ol.id)).Nodup := hperm.symm.nodup hnd
    cases hfm : findMismatch (l.map (fun ol => ol.id)) newO with
    | none =>
        refine ⟨l, ?_, ?_⟩
        · simp only [updateMapLayerOrder, reorderStep, hfm]
        · -- no mismatch over equal lengths means the lists are equal
          have hchar := (findMismatchAux_none_iff newO 0).mp hfm
          apply List.ext_getElem?_iff.mpr
          intro j
          by_cases hj : j < newO.length
          · have hjo : j < (l.map (fun ol => ol.id)).length := by omega
            obtain ⟨w, hw⟩ : ∃ w, (l.map (fun ol => ol.id))[j]? = some w := by
              rw [List.getElem?_eq_getElem hjo]
              exact ⟨_, rfl⟩
            obtain ⟨v, hv⟩ : ∃ v, newO[j]? = some v := by
              rw [List.getElem?_eq_getElem hj]
              exact ⟨_, rfl⟩
            have hm := hchar j v hv
            rw [Nat.zero_add] at hm
            unfold mismatchAt at hm
            rw [hw] at hm
            simp only [optToJs] at hm
            have hm : strictEq w v = true := by
              revert hm
              cases strictEq w v <;> simp
            have hvreg : v ≠ JsVal.freshArr :=
              regular_ne_freshArr (hreg v (List.getElem?_mem hv))
            have : w = v := (strictEq_eq_true_iff hvreg).mp hm
            rw [hw, hv, this]
          · rw [List.getElem?_eq_none (by omega), List.getElem?_eq_none (by omega)]
    | some idx =>
        obtain ⟨j, hjlen, hidxj, hmj, hpre⟩ := findMismatchAux_some_spec newO 0 idx hfm
        rw [Nat.zero_add] at hidxj
        subst idx
        have hidxo : j < (l.map (fun ol => ol.id)).length := by omega
        have hidxl : j < l.length := by omega
        have hli : l[j]? = some (l.get ⟨j, hidxl⟩) := by
          rw [List.getElem?_eq_getElem hidxl]
          rfl
        have hx : (l.map (fun ol => ol.id))[j]? = some (l.get ⟨j, hidxl⟩).id := by
          rw [List.getElem?_map, hli]
          rfl
        -- abbreviate the moved id
        have hxmemold : (l.get ⟨j, hidxl⟩).id ∈ l.map (fun ol => ol.id) :=
          List.getElem?_mem hx
        have hxmem : (l.get ⟨j, hidxl⟩).id ∈ newO := hperm.mem_iff.mp hxmemold
        have hxreg : regular (l.get ⟨j, hidxl⟩).id = true := hreg _ hxmem
        have hxarr : (l.get ⟨j, hidxl⟩).id ≠ JsVal.freshArr := regular_ne_freshArr hxreg
        obtain ⟨nv, hnv⟩ : ∃ nv, newO[j]? = some nv := by
          rw [List.getElem?_eq_getElem hjlen]
          exact ⟨_, rfl⟩
        have hmm := hmj nv hnv
        unfold mismatchAt at hmm
        rw [hx] at hmm
        simp only [optToJs, Bool.not_eq_true'] at hmm
        have hne : (l.get ⟨j, hidxl⟩).id ≠ nv := by
          intro hcon
          rw [hcon] at hmm
          have : strictEq nv nv = true :=
            strictEq_self (regular_ne_freshArr (hreg nv (List.getElem?_mem hnv)))
          rw [this] at hmm
          exact absurd hmm (by simp)
        have hmismatch : (l.map (fun ol => ol.id))[j]? ≠ newO[j]? := by
          rw [hx, hnv]
          intro hcon
          exact hne (Option.some.injEq _ _ ▸ hcon)
        -- locate the moved id in the desired order
        rcases jsFindIndex_spec (fun id => strictEq id (l.get ⟨j, hidxl⟩).id) newO with
          ⟨hneg, hall⟩ | ⟨t, hjfi, htlen, htval, htpre⟩
        · have hcontra := hall _ hxmem
          rw [strictEq_self hxarr] at hcontra
          exact absurd hcontra (by simp)
        · obtain ⟨w, hw⟩ : ∃ w, newO[t]? = some w := by
            rw [List.getElem?_eq_getElem htlen]
            exact ⟨_, rfl⟩
          have hweq : w = (l.get ⟨j, hidxl⟩).id := (strictEq_eq_true_iff hxarr).mp (htval w hw)
          have hnewt : newO[t]? = some (l.get ⟨j, hidxl⟩).id := by rw [hw, hweq]
          have htne : t ≠ j := by
            intro hcon
            rw [hcon, hnv] at hnewt
            exact hne (Option.some.injEq _ _ ▸ hnewt).symm
          have hjt : j < t := by
            by_contra hcon
            have htj : t < j := by omega
            have hmt := hpre t (l.get ⟨j, hidxl⟩).id htj hnewt
            unfold mismatchAt at hmt
            rw [Nat.zero_add] at hmt
            have hto2 : t < (l.map (fun ol => ol.id)).length := by omega
            obtain ⟨w2, hw2⟩ : ∃ w2, (l.map (fun ol => ol.id))[t]? = some w2 := by
              rw [List.getElem?_eq_getElem hto2]
              exact ⟨_, rfl⟩
            rw [hw2] at hmt
            simp only [optToJs] at hmt
            have hmt : strictEq w2 (l.get ⟨j, hidxl⟩).id = true := by
              revert hmt
              cases strictEq w2 (l.get ⟨j, hidxl⟩).id <;> simp
            have : w2 = (l.get ⟨j, hidxl⟩).id := (strictEq_eq_true_iff hxarr).mp hmt
            rw [this] at hw2
            have := List.getElem?_inj hto2 hndold (hw2.trans hx.symm)
            omega
          have hto : t < (l.map (fun ol => ol.id)).length := by omega
          have holdt : (l.map (fun ol => ol.id))[t]? ≠ some (l.get ⟨j, hidxl⟩).id := by
            intro hcon
            have := List.getElem?_inj hto hndold (hcon.trans hx.symm)
            omega
          -- the relocated collection and its id sequence
          have h1 : (l.map (some : OlLayer → Option OlLayer))[j]? =
              some (some (l.get ⟨j, hidxl⟩)) := by
            rw [List.getElem?_map, hli]
            rfl
          have hstep : reorderStep (l.map some) (l.map (fun ol => ol.id)) newO =
              some ((collInsertAt (collRemoveAt l j) (t : Int) (l.get ⟨j, hidxl⟩)).map some) := by
            simp only [reorderStep, hfm, h1, hx, optToJs, hjfi]
            rw [collRemoveAt_map, collInsertAt_map]
          have hmem' : ∀ e ∈ collInsertAt (collRemoveAt l j) (t : Int) (l.get ⟨j, hidxl⟩),
              e ∈ l := by
            intro e he
            rcases mem_collInsertAt he with he | he
            · rw [he]
              exact l.get_mem _ _
            · exact mem_collRemoveAt he
          have hids' : getLayersIds (collInsertAt (collRemoveAt l j) (t : Int) (l.get ⟨j, hidxl⟩))
              = (collInsertAt (collRemoveAt l j) (t : Int) (l.get ⟨j, hidxl⟩)).map
                  (fun ol => ol.id) := by
            apply getLayersIds_eq_map_id
            intro e he
            have : e.id ∈ l.map (fun ol => ol.id) := List.mem_map_of_mem _ (hmem' e he)
            exact regular_truthy (hreg _ (hperm.mem_iff.mp this))
          have hmap' : (collInsertAt (collRemoveAt l j) (t : Int) (l.get ⟨j, hidxl⟩)).map
                (fun ol => ol.id)
              = collInsertAt (collRemoveAt (l.map (fun ol => ol.id)) j) (t : Int)
                  (l.get ⟨j, hidxl⟩).id := by
            rw [collRemoveAt_map, ← collInsertAt_map]
          have hperm' : ((collInsertAt (collRemoveAt l j) (t : Int) (l.get ⟨j, hidxl⟩)).map
                (fun ol => ol.id)).Perm newO := by
            rw [hmap']
            have h1 := collInsertAt_perm (collRemoveAt (l.map (fun ol => ol.id)) j)
              (t : Int) (l.get ⟨j, hidxl⟩).id
            have h2 := collRemoveAt_cons_perm hx
            exact (h1.trans h2.symm).trans hperm
          have hphi' : phi ((collInsertAt (collRemoveAt l j) (t : Int)
                (l.get ⟨j, hidxl⟩)).map (fun ol => ol.id)) newO
              < phi (l.map (fun ol => ol.id)) newO := by
            rw [hmap']
            exact phi_step_lt hjlen htlen hjt hx hnewt hmismatch holdt hlen
          have hlt1 : phi ((collInsertAt (collRemoveAt l j) (t : Int)
                (l.get ⟨j, hidxl⟩)).map (fun ol => ol.id)) newO < b :=
            Nat.lt_of_lt_of_le hphi' hphi
          have hbf : b ≤ f := Nat.lt_succ_iff.mp hfuel
          obtain ⟨final, hrun, hfin⟩ :=
            ih _ hlt1
              (collInsertAt (collRemoveAt l j) (t : Int) (l.get ⟨j, hidxl⟩)) newO f
              hreg hnd hperm' (Nat.le_refl _) (Nat.lt_of_lt_of_le hlt1 hbf)
          refine ⟨final, ?_, hfin⟩
          rw [updateMapLayerOrder_succ, hstep]
          simp only [getLayersIdsLive_map_some, hids']
          exact hrun

end GisSync

namespace GisSync

/- ----------------------------------------------------------------------
Further shared helpers.
---------------------------------------------------------------------- -/

theorem strictEq_eq_of_true {a b : JsVal} (h : strictEq a b = true) : a = b := by
  cases a <;> cases b <;> simp_all [strictEq]

/-- The truthiness of `ids.find(id => id === v)` for a regular `v` is
exactly membership of `v` in `ids`. -/
theorem jsTruthyOpt_find_strictEq {ids : List JsVal} {v : JsVal}
    (hv : regular v = true) :
    jsTruthyOpt (ids.find? (fun w => strictEq w v)) = true ↔ v ∈ ids := by
  constructor
  · intro h
    cases hfind : ids.find? (fun w => strictEq w v) with
    | none => rw [hfind] at h; exact absurd h (by simp [jsTruthyOpt])
    | some w =>
        have hw := List.find?_some hfind
        have : w = v := strictEq_eq_of_true hw
        rw [← this]
        exact List.mem_of_find?_eq_some hfind
  · intro h
    have hsome : (ids.find? (fun w => strictEq w v)).isSome :=
      List.find?_isSome.mpr ⟨v, h, strictEq_self (regular_ne_freshArr hv)⟩
    cases hfind : ids.find? (fun w => strictEq w v) with
    | none => rw [hfind] at hsome; exact absurd hsome (by simp)
    | some w =>
        have hw := List.find?_some hfind
        have hwv : w = v := strictEq_eq_of_true hw
        simp [jsTruthyOpt, hwv, regular_truthy hv]

theorem mutateRef_map_eq {ls : List OlLayer} {r : Nat} (f : OlLayer → OlLayer)
    (g : OlLayer → α) (h : ∀ l, g (f l) = g l) :
    (mutateRef ls r f).map g = ls.map g := by
  unfold mutateRef
  rw [List.map_map]
  apply List.map_congr_left
  intro a _
  by_cases ha : a.ref = r <;> simp [ha, h a]

theorem syncOLMap_layers (cfg : SyncConfig) (mapConstants : MapConstants)
    (olMap : OlMapState) :
    (syncOLMap cfg mapConstants olMap).1.layers = olMap.layers := by
  unfold syncOLMap
  rcases mapConstants.zoom with _ | z <;> rcases mapConstants.center with _ | c <;>
    simp only [] <;> split <;> simp_all <;> split <;> simp_all

/- ----------------------------------------------------------------------
Claim C2.
---------------------------------------------------------------------- -/

/-- C2 (counterexample): the claimed bound of at most `n` relocation
steps is false.  For `n = 4`, reconciling the id order `[2,3,4,1]` into
`[1,2,3,4]` does not finish within 4 relocations (fuel 5 = one scan plus
4 relocations returns nothing; even fuel 7 does not suffice), while 7
relocations (fuel 8) do finish, with the correct final order. -/
theorem spec_c2_counterexample :
    updateMapLayerOrder 5 (rotColl.map some) (getLayersIds rotColl) rotTarget = none ∧
    updateMapLayerOrder 7 (rotColl.map some) (getLayersIds rotColl) rotTarget = none ∧
    reorderIds (updateMapLayerOrder 8 (rotColl.map some) (getLayersIds rotColl) rotTarget)
      = some (some rotTarget) := by
  decide

/-- Shared convergence corollary of `reorder_total`: with fuel
`2 ^ n` the reconciliation loop terminates on any permutation input with
regular pairwise-distinct ids, and the final id sequence equals the
desired one. -/
theorem reorder_converges (l : List OlLayer) (newOrder : List JsVal) (fuel : Nat)
    (hreg : ∀ v ∈ newOrder, regular v = true) (hnd : newOrder.Nodup)
    (hperm : (l.map (fun ol => ol.id)).Perm newOrder)
    (hfuel : 2 ^ newOrder.length ≤ fuel) :
    ∃ final : List OlLayer,
      updateMapLayerOrder fuel (l.map some) (getLayersIds l) newOrder
        = some (.ok (final.map some)) ∧
      final.map (fun ol => ol.id) = newOrder := by
  have hids : getLayersIds l = l.map (fun ol => ol.id) := by
    apply getLayersIds_eq_map_id
    intro x hxl
    exact regular_truthy (hreg _ (hperm.mem_iff.mp (List.mem_map_of_mem _ hxl)))
  rw [hids]
  have hp : 0 < 2 ^ newOrder.length := Nat.pos_pow_of_pos _ (by omega)
  refine reorder_total (2 ^ newOrder.length - 1) l newOrder fuel hreg hnd hperm ?_ ?_
  · have := phi_lt_two_pow (l.map (fun ol => ol.id)) newOrder
    omega
  · omega

/-- C2 (amended): for permutations of the same set of regular, pairwise
distinct ids, `updateMapLayerOrder` does terminate and the final id
sequence equals `desiredIds` exactly, but not within `n` relocation
steps; `2 ^ n` relocations always suffice. -/
theorem spec_c2_reorder_converges (l : List OlLayer) (newOrder : List JsVal)
    (fuel : Nat)
    (hreg : ∀ v ∈ newOrder, regular v = true) (hnd : newOrder.Nodup)
    (hperm : (l.map (fun ol => ol.id)).Perm newOrder)
    (hfuel : 2 ^ newOrder.length ≤ fuel) :
    ∃ final : List OlLayer,
      updateMapLayerOrder fuel (l.map some) (getLayersIds l) newOrder
        = some (.ok (final.map some)) ∧
      final.map (fun ol => ol.id) = newOrder :=
  reorder_converges l newOrder fuel hreg hnd hperm hfuel

theorem spec_c2_reorder_converges_witness :
    ∃ final : List OlLayer,
      updateMapLayerOrder 16 (rotColl.map some) (getLayersIds rotColl) rotTarget
        = some (.ok (final.map some)) ∧
      final.map (fun ol => ol.id) = rotTarget :=
  spec_c2_reorder_converges rotColl rotTarget 16 (by decide) (by decide) (by decide)
    (by decide)

/- ----------------------------------------------------------------------
Claim C5.
---------------------------------------------------------------------- -/

/-- C5 (counterexample): on the non-permutation input
(`currentIds = [1]`, `desiredIds = [2]`) `updateMapLayerOrder` raises no
error at all: its relocation step returns the very same collection (the
moved id is absent from the desired order, `findIndex` yields `-1`, and
`splice(-1)` re-inserts the layer where it was), the re-read id sequence
is again `[1]`, and the recursion makes no progress — 100 recursion
levels are exhausted without any result or error. -/
theorem spec_c5_counterexample :
    reorderStep [some loopLayer] [JsVal.num 1] [JsVal.num 2] = some [some loopLayer] ∧
    getLayersIdsLive [some loopLayer] = some [JsVal.num 1] ∧
    updateMapLayerOrder 100 [some loopLayer] [JsVal.num 1] [JsVal.num 2] = none := by
  decide

/-- C5 (amended): `updateMapLayerOrder` performs no permutation check and
raises no `InvariantViolation`; on non-permutation inputs it can recurse
without bound.  With the collection `[loopLayer]` (id 1) and desired ids
`[2]`, the recursion never returns, whatever depth it is given. -/
theorem spec_c5_unbounded_recursion (fuel : Nat) :
    updateMapLayerOrder fuel [some loopLayer] [JsVal.num 1] [JsVal.num 2] = none := by
  induction fuel with
  | zero => rfl
  | succ f ihf =>
      rw [updateMapLayerOrder_succ]
      have hstep : reorderStep [some loopLayer] [JsVal.num 1] [JsVal.num 2]
          = some [some loopLayer] := by decide
      have hids : getLayersIdsLive [some loopLayer] = some [JsVal.num 1] := by decide
      simp only [hstep, hids]
      exact ihf

end GisSync

namespace GisSync

/- ----------------------------------------------------------------------
Claim C6.
---------------------------------------------------------------------- -/

/-- C6: view synchronization writes are conditional and one-directional.
`syncOLMap` emits a zoom write exactly when the desired zoom is a number
differing from the current zoom, emits a center write exactly when a
desired center is present and differs from the current center expressed
in geographic coordinates, and leaves the view (and the whole map state)
untouched with no writes when both fields are absent. -/
theorem spec_c6_view_sync (cfg : SyncConfig) (mapConstants : MapConstants)
    (olMap : OlMapState) :
    ((∃ z, ViewWrite.setZoom z ∈ (syncOLMap cfg mapConstants olMap).2) ↔
      (∃ z, mapConstants.zoom = some z ∧ z ≠ olMap.view.zoom)) ∧
    ((∃ c, ViewWrite.setCenter c ∈ (syncOLMap cfg mapConstants olMap).2) ↔
      (∃ c, mapConstants.center = some c ∧ c ≠ cfg.toLonLat olMap.view.center)) ∧
    (mapConstants.center = none → mapConstants.zoom = none →
      syncOLMap cfg mapConstants olMap = (olMap, [])) := by
  unfold syncOLMap
  rcases hz : mapConstants.zoom with _ | z <;>
    rcases hc : mapConstants.center with _ | c <;>
      dsimp only <;>
      refine ⟨?_, ?_, ?_⟩ <;>
      (try split_ifs) <;>
      simp_all

theorem spec_c6_view_sync_witness :
    (∃ z, ViewWrite.setZoom z ∈
      (syncOLMap cfgId { center := none, zoom := some 3 } (mapWith [])).2) ∧
    syncOLMap cfgId { center := none, zoom := none } (mapWith []) = (mapWith [], []) :=
  ⟨(spec_c6_view_sync cfgId { center := none, zoom := some 3 } (mapWith [])).1.mpr
      ⟨3, rfl, by decide⟩,
   (spec_c6_view_sync cfgId { center := none, zoom := none } (mapWith [])).2.2 rfl rfl⟩

/- ----------------------------------------------------------------------
Claim C8.
---------------------------------------------------------------------- -/

/-- C8: `createCorrespondingOLLayer` fails with the unsupported-layer-type
error on every type tag outside TILE, VECTOR and GEOHASH_GRID, and for
each of those three types returns a newly constructed scene layer
(allocation tag = the fresh counter) annotated with `id = layer.id`. -/
theorem spec_c8_layer_converter (cfg : SyncConfig) (fresh : Nat) (layer : Layer) :
    (∀ tag, layer.type = LayerType.UNKNOWN tag →
      createCorrespondingOLLayer cfg fresh layer = .error .unsupportedLayerType) ∧
    (layer.type = LayerType.TILE ∨ layer.type = LayerType.VECTOR ∨
        layer.type = LayerType.GEOHASH_GRID →
      ∃ olLayer calls,
        createCorrespondingOLLayer cfg fresh layer = .ok (olLayer, calls) ∧
        olLayer.id = layer.id ∧ olLayer.ref = fresh) := by
  constructor
  · intro tag htag
    unfold createCorrespondingOLLayer
    rw [htag]
  · rintro (h | h | h) <;>
      · unfold createCorrespondingOLLayer
        rw [h]
        exact ⟨_, _, rfl, rfl, rfl⟩

theorem spec_c8_layer_converter_witness :
    createCorrespondingOLLayer cfgId 7
        { id := .num 5, type := .UNKNOWN 0, visible := true, temporary := false,
          style := 0, source := 0 }
      = .error .unsupportedLayerType ∧
    ∃ olLayer calls,
      createCorrespondingOLLayer cfgId 7 (tileDescNum 5) = .ok (olLayer, calls) ∧
      olLayer.id = (tileDescNum 5).id ∧ olLayer.ref = 7 :=
  ⟨(spec_c8_layer_converter cfgId 7 _).1 0 rfl,
   (spec_c8_layer_converter cfgId 7 (tileDescNum 5)).2 (Or.inl rfl)⟩

end GisSync

namespace GisSync

theorem mem_getLayersIds_iff {layers : List OlLayer} {v : JsVal}
    (hv : regular v = true) :
    v ∈ getLayersIds layers ↔ ∃ e ∈ layers, e.id = v := by
  unfold getLayersIds
  rw [List.mem_map]
  constructor
  · rintro ⟨e, he, hev⟩
    unfold jsIdOrArr at hev
    by_cases ht : truthy e.id = true
    · rw [if_pos ht] at hev
      exact ⟨e, he, hev⟩
    · rw [if_neg ht] at hev
      exact absurd hev.symm (regular_ne_freshArr hv)
  · rintro ⟨e, he, hev⟩
    refine ⟨e, he, ?_⟩
    unfold jsIdOrArr
    rw [hev, if_pos (regular_truthy hv)]

/- ----------------------------------------------------------------------
Claim C10.
---------------------------------------------------------------------- -/

/-- C10: the membership tests of the mutation phase are truthiness-based.
For a falsy layer id: the addition test of `addLayers` never finds a
match in the `getLayersIds` snapshot (falsy ids were replaced by fresh
empty arrays), so the layer is appended unconditionally — even when a
scene layer with that very id is already present; and `removeLayers`
schedules the scene layer for removal even when its id is present in the
desired id list (the found element is the falsy id itself, which fails
the truthiness test).  For a regular (truthy, non-array) id both tests
behave as genuine membership tests. -/
theorem spec_c10_falsy_ids (map : OlMapState) (newLayer : OlLayer)
    (layers : List OlLayer) (desired : List JsVal) (idx : Nat) (l : OlLayer) :
    (truthy newLayer.id = false →
      addLayers map newLayer (getLayersIds map.layers)
        = { map with layers := map.layers ++ [newLayer] }) ∧
    (layers[idx]? = some l → truthy l.id = false →
      idx ∈ removalIndices layers desired) ∧
    (regular newLayer.id = true →
      (addLayers map newLayer (getLayersIds map.layers) = map ↔
        ∃ e ∈ map.layers, e.id = newLayer.id)) ∧
    (layers[idx]? = some l → regular l.id = true →
      (idx ∈ removalIndices layers desired ↔ l.id ∉ desired)) := by
  refine ⟨?_, ?_, ?_, ?_⟩
  · intro hfalsy
    unfold addLayers
    cases hfind : (getLayersIds map.layers).find?
        (fun layerId => strictEq layerId newLayer.id) with
    | none => simp [hfind, jsTruthyOpt]
    | some w =>
        have hw : strictEq w newLayer.id = true := by
          have := List.find?_some hfind
          simpa using this
        have hwv : w = newLayer.id := strictEq_eq_of_true hw
        simp [hfind, jsTruthyOpt, hwv, hfalsy]
  · intro hl hfalsy
    unfold removalIndices
    rw [List.mem_filterMap]
    refine ⟨(idx, l), List.mk_mem_enum_iff_getElem?.mpr hl, ?_⟩
    cases hfind : desired.find? (fun id => strictEq id l.id) with
    | none => simp [hfind, jsTruthyOpt]
    | some w =>
        have hw : strictEq w l.id = true := by
          have := List.find?_some hfind
          simpa using this
        have hwv : w = l.id := strictEq_eq_of_true hw
        simp [hfind, jsTruthyOpt, hwv, hfalsy]
  · intro hreg
    by_cases hcond : jsTruthyOpt ((getLayersIds map.layers).find?
        (fun layerId => strictEq layerId newLayer.id)) = true
    · constructor
      · intro _
        exact (mem_getLayersIds_iff hreg).mp ((jsTruthyOpt_find_strictEq hreg).mp hcond)
      · intro _
        unfold addLayers
        rw [if_pos hcond]
    · constructor
      · intro hstate
        exfalso
        unfold addLayers at hstate
        rw [if_neg hcond] at hstate
        have hlen := congrArg (fun m => m.layers.length) hstate
        simp at hlen
      · intro hex
        exact absurd ((jsTruthyOpt_find_strictEq hreg).mpr
          ((mem_getLayersIds_iff hreg).mpr hex)) hcond
  · intro hl hreg
    unfold removalIndices
    rw [List.mem_filterMap]
    constructor
    · rintro ⟨⟨i, e⟩, hmem, hf⟩
      by_cases hcond : jsTruthyOpt (desired.find? (fun id => strictEq id e.id)) = true
      · rw [if_pos hcond] at hf
        exact absurd hf (by simp)
      · rw [if_neg hcond] at hf
        have hi : i = idx := by
          have := Option.some.injEq i idx ▸ hf
          simpa using hf
        subst hi
        have hel : e = l := by
          have h2 := List.mk_mem_enum_iff_getElem?.mp hmem
          rw [hl] at h2
          exact (Option.some_inj.mp h2).symm
        subst hel
        intro hmemdes
        exact hcond ((jsTruthyOpt_find_strictEq hreg).mpr hmemdes)
    · intro hnotmem
      refine ⟨(idx, l), List.mk_mem_enum_iff_getElem?.mpr hl, ?_⟩
      rw [if_neg (fun hcond =>
        hnotmem ((jsTruthyOpt_find_strictEq hreg).mp hcond))]

theorem spec_c10_falsy_ids_witness :
    (addLayers (mapWith [tileSceneNum 0 0]) (tileSceneNum 0 0)
        (getLayersIds (mapWith [tileSceneNum 0 0]).layers)
      = { mapWith [tileSceneNum 0 0] with
          layers := (mapWith [tileSceneNum 0 0]).layers ++ [tileSceneNum 0 0] }) ∧
    0 ∈ removalIndices [tileSceneNum 0 0] [JsVal.num 0] ∧
    (addLayers (mapWith [tileSceneNum 1 0]) (tileSceneNum 1 5)
        (getLayersIds (mapWith [tileSceneNum 1 0]).layers) = mapWith [tileSceneNum 1 0] ↔
      ∃ e ∈ (mapWith [tileSceneNum 1 0]).layers, e.id = (tileSceneNum 1 5).id) ∧
    (0 ∈ removalIndices [tileSceneNum 1 0] [JsVal.num 2] ↔
      (tileSceneNum 1 0).id ∉ ([JsVal.num 2] : List JsVal)) :=
  ⟨(spec_c10_falsy_ids (mapWith [tileSceneNum 0 0]) (tileSceneNum 0 0)
      [tileSceneNum 0 0] [JsVal.num 0] 0 (tileSceneNum 0 0)).1 (by decide),
   (spec_c10_falsy_ids (mapWith [tileSceneNum 0 0]) (tileSceneNum 0 0)
      [tileSceneNum 0 0] [JsVal.num 0] 0 (tileSceneNum 0 0)).2.1 (by decide) (by decide),
   (spec_c10_falsy_ids (mapWith [tileSceneNum 1 0]) (tileSceneNum 1 5)
      [tileSceneNum 1 0] [JsVal.num 2] 0 (tileSceneNum 1 0)).2.2.1 (by decide),
   (spec_c10_falsy_ids (mapWith [tileSceneNum 1 0]) (tileSceneNum 1 5)
      [tileSceneNum 1 0] [JsVal.num 2] 0 (tileSceneNum 1 0)).2.2.2 (by decide) (by decide)⟩

end GisSync

namespace GisSync

theorem applyAddAndUpdate_calls (cfg : SyncConfig) (layersIds : List JsVal)
    (map : OlMapState) (p : LayerPair) :
    ∀ call ∈ (applyAddAndUpdate cfg layersIds map p).2,
      call.forType = LayerType.VECTOR := by
  intro call hc
  unfold applyAddAndUpdate at hc
  by_cases hv : p.layer.type = LayerType.VECTOR
  · rw [if_pos hv] at hc
    unfold updateFillAndOutlineStyle at hc
    simp only [List.mem_singleton] at hc
    rw [hc]
    exact hv
  · rw [if_neg hv] at hc
    simp at hc

theorem applyPairs_calls (cfg : SyncConfig) (layersIds : List JsVal) :
    ∀ (pairs : List LayerPair) (map : OlMapState),
      ∀ call ∈ (applyPairs cfg layersIds map pairs).2,
        call.forType = LayerType.VECTOR := by
  intro pairs
  induction pairs with
  | nil =>
      intro map call hc
      simp [applyPairs] at hc
  | cons p rest ih =>
      intro map call hc
      simp only [applyPairs] at hc
      rcases List.mem_append.mp hc with h | h
      · exact applyAddAndUpdate_calls cfg layersIds map p call h
      · exact ih _ call h

/- ----------------------------------------------------------------------
Claim C9.
---------------------------------------------------------------------- -/

/-- C9: style gating.  Every style-resolver invocation made during the
adds-and-updates phase is made for a layer of type VECTOR, and for a pair
whose layer is not of type VECTOR the update step makes no resolver call
and changes no scene layer's applied style (beyond what the membership
test of `addLayers` does, which never touches styles). -/
theorem spec_c9_style_gating (cfg : SyncConfig) (layersIds : List JsVal)
    (map : OlMapState) (pairs : List LayerPair) (p : LayerPair) :
    (∀ call ∈ (applyPairs cfg layersIds map pairs).2,
      call.forType = LayerType.VECTOR) ∧
    (p.layer.type ≠ LayerType.VECTOR →
      (applyAddAndUpdate cfg layersIds map p).1.layers.map (fun ol => ol.style)
        = (addLayers map p.olLayer layersIds).layers.map (fun ol => ol.style) ∧
      (applyAddAndUpdate cfg layersIds map p).2 = []) := by
  constructor
  · exact fun call hc => applyPairs_calls cfg layersIds pairs map call hc
  · intro hnv
    unfold applyAddAndUpdate
    rw [if_neg hnv]
    constructor
    · exact mutateRef_map_eq _ (fun ol => ol.style) (fun l => rfl)
    · rfl

theorem spec_c9_style_gating_witness :
    (∀ call ∈ (applyPairs cfgId [JsVal.num 1] (mapWith [tileSceneNum 1 0]) [tilePair]).2,
      call.forType = LayerType.VECTOR) ∧
    ((applyAddAndUpdate cfgId [JsVal.num 1] (mapWith [tileSceneNum 1 0]) tilePair).1.layers.map
          (fun ol => ol.style)
        = (addLayers (mapWith [tileSceneNum 1 0]) tilePair.olLayer
            [JsVal.num 1]).layers.map (fun ol => ol.style) ∧
      (applyAddAndUpdate cfgId [JsVal.num 1] (mapWith [tileSceneNum 1 0]) tilePair).2 = []) :=
  ⟨(spec_c9_style_gating cfgId [JsVal.num 1] (mapWith [tileSceneNum 1 0])
      [tilePair] tilePair).1,
   (spec_c9_style_gating cfgId [JsVal.num 1] (mapWith [tileSceneNum 1 0])
      [tilePair] tilePair).2 (by decide)⟩

end GisSync


namespace GisSync

theorem syncLayerInitializationAux_spec (cfg : SyncConfig) (arr : List OlLayer) :
    ∀ (layerList : List Layer) (fresh : Nat) (pairs : List LayerPair)
      (freshOut : Nat) (calls : List StyleCall),
      syncLayerInitializationAux cfg arr layerList fresh = .ok (pairs, freshOut, calls) →
      pairs.map (fun p => p.layer) = layerList ∧
      (∀ i, ∀ hi : i < layerList.length, ∀ ol,
        arr.find? (fun olLayer => strictEq olLayer.id (layerList.get ⟨i, hi⟩).id)
          = some ol →
        pairs[i]? = some { layer := layerList.get ⟨i, hi⟩, olLayer := ol }) ∧
      ((∀ layer ∈ layerList,
          (arr.find? (fun olLayer => strictEq olLayer.id layer.id)).isSome) →
        freshOut = fresh ∧ calls = []) := by
  intro layerList
  induction layerList with
  | nil =>
      intro fresh pairs freshOut calls h
      simp only [syncLayerInitializationAux] at h
      cases h
      refine ⟨rfl, ?_, fun _ => ⟨rfl, rfl⟩⟩
      intro i hi
      exact absurd hi (by simp)
  | cons layer rest ih =>
      intro fresh pairs freshOut calls h
      simp only [syncLayerInitializationAux] at h
      cases hfind : arr.find? (fun olLayer => strictEq olLayer.id layer.id) with
      | some found =>
          rw [hfind] at h
          cases hrest : syncLayerInitializationAux cfg arr rest fresh with
          | error e => rw [hrest] at h; cases h
          | ok trip =>
              obtain ⟨restPairs, restFresh, restCalls⟩ := trip
              rw [hrest] at h
              cases h
              obtain ⟨ih1, ih2, ih3⟩ := ih fresh restPairs freshOut calls hrest
              refine ⟨by simp [ih1], ?_, ?_⟩
              · intro i hi ol hol
                match i with
                | 0 =>
                    simp only [List.get] at hol
                    rw [hfind] at hol
                    cases hol
                    simp [List.get]
                | i + 1 =>
                    have := ih2 i (by simpa using hi) ol (by simpa using hol)
                    simpa using this
              · intro hall
                exact ih3 (fun q hq => hall q (List.mem_cons_of_mem _ hq))
      | none =>
          rw [hfind] at h
          cases hcreate : createCorrespondingOLLayer cfg fresh layer with
          | error e => rw [hcreate] at h; cases h
          | ok created =>
              obtain ⟨ol0, calls0⟩ := created
              rw [hcreate] at h
              cases hrest : syncLayerInitializationAux cfg arr rest (fresh + 1) with
              | error e => rw [hrest] at h; cases h
              | ok trip =>
                  obtain ⟨restPairs, restFresh, restCalls⟩ := trip
                  rw [hrest] at h
                  cases h
                  obtain ⟨ih1, ih2, ih3⟩ := ih (fresh + 1) restPairs freshOut restCalls hrest
                  refine ⟨by simp [ih1], ?_, ?_⟩
                  · intro i hi ol hol
                    match i with
                    | 0 =>
                        simp only [List.get] at hol
                        rw [hfind] at hol
                        cases hol
                    | i + 1 =>
                        have := ih2 i (by simpa using hi) ol (by simpa using hol)
                        simpa using this
                  · intro hall
                    have hcontra := hall layer (List.mem_cons_self _ _)
                    rw [hfind] at hcontra
                    exact absurd hcontra (by simp)

/- ----------------------------------------------------------------------
Claim C7.
---------------------------------------------------------------------- -/

/-- C7: SceneLayer reuse.  When `syncLayerInitialization` succeeds it
returns the engine state unchanged (the diff performs no collection
mutation), one pair per desired layer in the desired order, and every
desired layer whose id already has a scene layer in the engine's
collection is paired with that very object (the first `find` match);
when every desired id is found, no scene layer is constructed at all
(the allocation counter is untouched and no creation-time resolver call
is made). -/
theorem spec_c7_scene_layer_reuse (cfg : SyncConfig) (olMap : OlMapState)
    (layerList : List Layer) (fresh : Nat) (mapOut : OlMapState)
    (pairs : List LayerPair) (freshOut : Nat) (calls : List StyleCall)
    (h : syncLayerInitialization cfg olMap layerList fresh
      = .ok (mapOut, pairs, freshOut, calls)) :
    mapOut = olMap ∧
    pairs.map (fun p => p.layer) = layerList ∧
    (∀ i, ∀ hi : i < layerList.length, ∀ ol,
      olMap.layers.find? (fun olLayer => strictEq olLayer.id (layerList.get ⟨i, hi⟩).id)
        = some ol →
      pairs[i]? = some { layer := layerList.get ⟨i, hi⟩, olLayer := ol }) ∧
    ((∀ layer ∈ layerList,
        (olMap.layers.find? (fun olLayer => strictEq olLayer.id layer.id)).isSome) →
      freshOut = fresh ∧ calls = []) := by
  unfold syncLayerInitialization at h
  cases haux : syncLayerInitializationAux cfg olMap.layers layerList fresh with
  | error e => rw [haux] at h; cases h
  | ok trip =>
      obtain ⟨auxPairs, auxFresh, auxCalls⟩ := trip
      rw [haux] at h
      cases h
      obtain ⟨h1, h2, h3⟩ :=
        syncLayerInitializationAux_spec cfg olMap.layers layerList fresh pairs
          freshOut calls haux
      exact ⟨rfl, h1, h2, h3⟩

theorem spec_c7_scene_layer_reuse_witness :
    mapWith [tileSceneNum 1 0] = mapWith [tileSceneNum 1 0] ∧
    ([{ layer := tileDescNum 1, olLayer := tileSceneNum 1 0 }] :
        List LayerPair).map (fun p => p.layer) = [tileDescNum 1] ∧
    (∀ i, ∀ hi : i < ([tileDescNum 1] : List Layer).length, ∀ ol,
      (mapWith [tileSceneNum 1 0]).layers.find?
          (fun olLayer => strictEq olLayer.id (([tileDescNum 1] : List Layer).get ⟨i, hi⟩).id)
        = some ol →
      ([{ layer := tileDescNum 1, olLayer := tileSceneNum 1 0 }] : List LayerPair)[i]?
        = some { layer := ([tileDescNum 1] : List Layer).get ⟨i, hi⟩, olLayer := ol }) ∧
    ((∀ layer ∈ ([tileDescNum 1] : List Layer),
        ((mapWith [tileSceneNum 1 0]).layers.find?
          (fun olLayer => strictEq olLayer.id layer.id)).isSome) →
      (10 : Nat) = 10 ∧ ([] : List StyleCall) = []) :=
  spec_c7_scene_layer_reuse cfgId (mapWith [tileSceneNum 1 0]) [tileDescNum 1] 10
    (mapWith [tileSceneNum 1 0])
    [{ layer := tileDescNum 1, olLayer := tileSceneNum 1 0 }] 10 [] (by rfl)

end GisSync

namespace GisSync

/- ----------------------------------------------------------------------
Claims C1 and C4.
---------------------------------------------------------------------- -/

/-- C1: membership correctness fails when two scene layers must be
removed in the same pass.  With the engine holding ids `[1, 2, 3]` and
the desired list `[1]`, `removeLayers` collects the stale indices
`[1, 2]` and removes them one at a time against the live, shrinking
collection: after `removeAt(1)` deletes id 2, index 2 is out of range and
deletes nothing, so id 3 — absent from the desired list — survives the
pass.  The resulting id set `{1, 3}` is not the desired `{1}`. -/
theorem spec_c1_membership_bug :
    resultIds (syncOLState cfgId 9 mcEmpty keepOne engine123 10)
      = some (.ok [JsVal.num 1, JsVal.num 3]) ∧
    removalIndices engine123.layers [JsVal.num 1] = [1, 2] ∧
    ¬ ([JsVal.num 1, JsVal.num 3] : List JsVal) ⊆ [JsVal.num 1] :=
  ⟨by rfl, by rfl, by decide⟩

/-- C4: idempotence fails.  Starting from the engine state `[1, 2, 3]`
with desired list `[1]` (a state in which the first pass leaves the
leaked id 3 behind, see C1), the first `syncOLState` pass leaves ids
`[1, 3]` and an immediately repeated pass with identical inputs removes
the leftover and leaves `[1]`: the second call observably changes the
engine, so two successive passes are not idempotent. -/
theorem spec_c4_not_idempotent :
    resultIds (syncOLState cfgId 9 mcEmpty keepOne engine123 10)
      = some (.ok [JsVal.num 1, JsVal.num 3]) ∧
    resultIds (syncTwice cfgId 9 mcEmpty keepOne engine123 10)
      = some (.ok [JsVal.num 1]) ∧
    ([JsVal.num 1, JsVal.num 3] : List JsVal) ≠ [JsVal.num 1] :=
  ⟨by rfl, by rfl, by decide⟩

end GisSync

namespace GisSync

theorem collectLayers_map_some (l : List OlLayer) :
    collectLayers (l.map some) = some l := by
  induction l with
  | nil => rfl
  | cons a t ih => simp [collectLayers, ih]

theorem syncLayerInitializationAux_found_ok (cfg : SyncConfig) (arr : List OlLayer) :
    ∀ (layerList : List Layer) (fresh : Nat),
      (∀ layer ∈ layerList,
        (arr.find? (fun ol => strictEq ol.id layer.id)).isSome) →
      ∃ pairs,
        syncLayerInitializationAux cfg arr layerList fresh = .ok (pairs, fresh, []) ∧
        pairs.map (fun p => p.layer) = layerList ∧
        ∀ p ∈ pairs, p.olLayer ∈ arr ∧ strictEq p.olLayer.id p.layer.id = true := by
  intro layerList
  induction layerList with
  | nil =>
      intro fresh _
      exact ⟨[], rfl, rfl, by simp⟩
  | cons layer rest ih =>
      intro fresh hall
      obtain ⟨found, hfind⟩ :=
        Option.isSome_iff_exists.mp (hall layer (List.mem_cons_self _ _))
      obtain ⟨restPairs, hok, hmap, hmem⟩ :=
        ih fresh (fun q hq => hall q (List.mem_cons_of_mem _ hq))
      refine ⟨{ layer := layer, olLayer := found } :: restPairs, ?_, by simp [hmap], ?_⟩
      · simp only [syncLayerInitializationAux, hfind, hok]
      · intro p hp
        rcases List.mem_cons.mp hp with hp | hp
        · subst hp
          have hpred : strictEq found.id layer.id = true := by
            have := List.find?_some hfind
            simpa using this
          exact ⟨List.mem_of_find?_eq_some hfind, hpred⟩
        · exact hmem p hp

theorem applyAddAndUpdate_preserves_ids (cfg : SyncConfig) (layersIds : List JsVal)
    (map : OlMapState) (p : LayerPair)
    (hfound : jsTruthyOpt (layersIds.find? (fun w => strictEq w p.olLayer.id)) = true) :
    (applyAddAndUpdate cfg layersIds map p).1.layers.map (fun ol => ol.id)
      = map.layers.map (fun ol => ol.id) := by
  unfold applyAddAndUpdate
  have hadd : addLayers map p.olLayer layersIds = map := by
    unfold addLayers
    rw [if_pos hfound]
  rw [hadd]
  have hvis : (mutateRef map.layers p.olLayer.ref
        (fun l => { l with visible := p.layer.visible })).map (fun ol => ol.id)
      = map.layers.map (fun ol => ol.id) :=
    mutateRef_map_eq _ (fun ol => ol.id) (fun l => rfl)
  by_cases hv : p.layer.type = LayerType.VECTOR
  · rw [if_pos hv]
    unfold updateFillAndOutlineStyle
    dsimp only
    by_cases hss : hasSetStyle p.olLayer.kind = true
    · rw [if_pos hss]
      dsimp only
      rw [mutateRef_map_eq
        (fun l => { l with style := some (cfg.resolveStyle p.layer.style p.layer.temporary) })
        (fun ol => ol.id) (fun l => rfl)]
      exact hvis
    · rw [if_neg hss]
      exact hvis
  · rw [if_neg hv]
    exact hvis

theorem applyPairs_preserves_ids (cfg : SyncConfig) (layersIds : List JsVal) :
    ∀ (pairs : List LayerPair) (map : OlMapState),
      (∀ p ∈ pairs,
        jsTruthyOpt (layersIds.find? (fun w => strictEq w p.olLayer.id)) = true) →
      (applyPairs cfg layersIds map pairs).1.layers.map (fun ol => ol.id)
        = map.layers.map (fun ol => ol.id) := by
  intro pairs
  induction pairs with
  | nil => intro map _; rfl
  | cons p rest ihp =>
      intro map hall
      simp only [applyPairs]
      rw [ihp _ (fun q hq => hall q (List.mem_cons_of_mem _ hq))]
      exact applyAddAndUpdate_preserves_ids cfg layersIds map p
        (hall p (List.mem_cons_self _ _))

theorem removeLayers_noop {map : OlMapState} {updatedLayersIds : List JsVal}
    (h : ∀ e ∈ map.layers,
      jsTruthyOpt (updatedLayersIds.find? (fun w => strictEq w e.id)) = true) :
    removeLayers map updatedLayersIds = map := by
  unfold removeLayers
  have hnil : removalIndices map.layers updatedLayersIds = [] := by
    unfold removalIndices
    rw [List.filterMap_eq_nil_iff]
    rintro ⟨i, e⟩ hmem
    have he : e ∈ map.layers :=
      List.getElem?_mem (List.mk_mem_enum_iff_getElem?.mp hmem)
    rw [if_pos (h e he)]
  rw [hnil]
  rfl

end GisSync

namespace GisSync

/- ----------------------------------------------------------------------
Claim C3.
---------------------------------------------------------------------- -/

/-- C3: order correctness on a previously-synced permutation.  When the
engine already holds exactly one scene layer per desired id (in any
order) and the desired ids are regular and pairwise distinct, a full
`syncOLState` pass succeeds (given reorder fuel `2 ^ n`) and afterwards
the engine collection's id sequence equals the desired layer list's id
sequence, in the same order. -/
theorem spec_c3_order_correct (cfg : SyncConfig) (mapConstants : MapConstants)
    (layerList : List Layer) (map0 : OlMapState) (fresh fuel : Nat)
    (hreg : ∀ v ∈ layerList.map (fun layer => layer.id), regular v = true)
    (hnd : (layerList.map (fun layer => layer.id)).Nodup)
    (hperm : (map0.layers.map (fun ol => ol.id)).Perm
      (layerList.map (fun layer => layer.id)))
    (hfuel : 2 ^ layerList.length ≤ fuel) :
    ∃ r : SyncResult,
      syncOLState cfg fuel mapConstants layerList map0 fresh = some (.ok r) ∧
      r.map.layers.map (fun ol => ol.id) = layerList.map (fun layer => layer.id) := by
  have hlay1 : (syncOLMap cfg mapConstants map0).1.layers = map0.layers :=
    syncOLMap_layers cfg mapConstants map0
  have hfound : ∀ layer ∈ layerList,
      ((syncOLMap cfg mapConstants map0).1.layers.find?
        (fun ol => strictEq ol.id layer.id)).isSome := by
    intro layer hl
    apply List.find?_isSome.mpr
    have hmem : layer.id ∈ map0.layers.map (fun ol => ol.id) :=
      hperm.mem_iff.mpr (List.mem_map_of_mem _ hl)
    obtain ⟨e, he, hei⟩ := List.mem_map.mp hmem
    refine ⟨e, by rw [hlay1]; exact he, ?_⟩
    rw [hei]
    exact strictEq_self (regular_ne_freshArr (hreg _ (List.mem_map_of_mem _ hl)))
  obtain ⟨pairs, hauxok, hpairsmap, hpairsmem⟩ :=
    syncLayerInitializationAux_found_ok cfg
      (syncOLMap cfg mapConstants map0).1.layers layerList fresh hfound
  have hinit : syncLayerInitialization cfg (syncOLMap cfg mapConstants map0).1
      layerList fresh
      = .ok ((syncOLMap cfg mapConstants map0).1, pairs, fresh, []) := by
    unfold syncLayerInitialization
    rw [hauxok]
  have hpairid : ∀ p ∈ pairs, p.olLayer.id = p.layer.id := by
    intro p hp
    have hpl : p.layer ∈ layerList := by
      rw [← hpairsmap]
      exact List.mem_map_of_mem _ hp
    have hregp : regular p.layer.id = true := hreg _ (List.mem_map_of_mem _ hpl)
    exact (strictEq_eq_true_iff (regular_ne_freshArr hregp)).mp (hpairsmem p hp).2
  have hlayersIds : getLayersIds (syncOLMap cfg mapConstants map0).1.layers
      = map0.layers.map (fun ol => ol.id) := by
    rw [hlay1]
    apply getLayersIds_eq_map_id
    intro x hx
    exact regular_truthy (hreg _ (hperm.mem_iff.mp (List.mem_map_of_mem _ hx)))
  have hcond : ∀ p ∈ pairs,
      jsTruthyOpt ((getLayersIds (syncOLMap cfg mapConstants map0).1.layers).find?
        (fun w => strictEq w p.olLayer.id)) = true := by
    intro p hp
    have hpl : p.layer ∈ layerList := by
      rw [← hpairsmap]
      exact List.mem_map_of_mem _ hp
    have hregp : regular p.olLayer.id = true := by
      rw [hpairid p hp]
      exact hreg _ (List.mem_map_of_mem _ hpl)
    rw [jsTruthyOpt_find_strictEq hregp, hlayersIds, hpairid p hp]
    exact hperm.mem_iff.mpr (List.mem_map_of_mem _ hpl)
  have hupdids : (applyPairs cfg (getLayersIds (syncOLMap cfg mapConstants map0).1.layers)
        (syncOLMap cfg mapConstants map0).1 pairs).1.layers.map (fun ol => ol.id)
      = map0.layers.map (fun ol => ol.id) := by
    rw [applyPairs_preserves_ids cfg _ pairs _ hcond]
    rw [hlay1]
  have hnewIds : pairs.map (fun p => p.layer.id)
      = layerList.map (fun layer => layer.id) := by
    rw [← hpairsmap, List.map_map]
    rfl
  have hremcond : ∀ e ∈ (applyPairs cfg
        (getLayersIds (syncOLMap cfg mapConstants map0).1.layers)
        (syncOLMap cfg mapConstants map0).1 pairs).1.layers,
      jsTruthyOpt ((layerList.map (fun layer => layer.id)).find?
        (fun w => strictEq w e.id)) = true := by
    intro e he
    have hemem : e.id ∈ (applyPairs cfg
        (getLayersIds (syncOLMap cfg mapConstants map0).1.layers)
        (syncOLMap cfg mapConstants map0).1 pairs).1.layers.map (fun ol => ol.id) :=
      List.mem_map_of_mem _ he
    rw [hupdids] at hemem
    have hememids : e.id ∈ layerList.map (fun layer => layer.id) :=
      hperm.mem_iff.mp hemem
    rw [jsTruthyOpt_find_strictEq (hreg _ hememids)]
    exact hememids
  have hremove : removeLayers (applyPairs cfg
        (getLayersIds (syncOLMap cfg mapConstants map0).1.layers)
        (syncOLMap cfg mapConstants map0).1 pairs).1
        (layerList.map (fun layer => layer.id))
      = (applyPairs cfg (getLayersIds (syncOLMap cfg mapConstants map0).1.layers)
          (syncOLMap cfg mapConstants map0).1 pairs).1 :=
    removeLayers_noop hremcond
  have hpermUpd : ((applyPairs cfg
        (getLayersIds (syncOLMap cfg mapConstants map0).1.layers)
        (syncOLMap cfg mapConstants map0).1 pairs).1.layers.map (fun ol => ol.id)).Perm
      (layerList.map (fun layer => layer.id)) := by
    rw [hupdids]
    exact hperm
  obtain ⟨final, hrun, hfinal⟩ := reorder_converges
    (applyPairs cfg (getLayersIds (syncOLMap cfg mapConstants map0).1.layers)
      (syncOLMap cfg mapConstants map0).1 pairs).1.layers
    (layerList.map (fun layer => layer.id)) fuel hreg hnd hpermUpd
    (by simpa using hfuel)
  refine ⟨⟨⟨(applyPairs cfg (getLayersIds (syncOLMap cfg mapConstants map0).1.layers)
        (syncOLMap cfg mapConstants map0).1 pairs).1.view, final⟩,
      (syncOLMap cfg mapConstants map0).2, [],
      (applyPairs cfg (getLayersIds (syncOLMap cfg mapConstants map0).1.layers)
        (syncOLMap cfg mapConstants map0).1 pairs).2, fresh⟩, ?_, ?_⟩
  · simp only [syncOLState, hinit]
    rw [hnewIds, hremove]
    simp only [hrun, collectLayers_map_some]
  · dsimp only
    exact hfinal

theorem spec_c3_order_correct_witness :
    ∃ r : SyncResult,
      syncOLState cfgId 4 mcEmpty [tileDescNum 2, tileDescNum 1]
          (mapWith [tileSceneNum 1 0, tileSceneNum 2 1]) 10
        = some (.ok r) ∧
      r.map.layers.map (fun ol => ol.id)
        = ([tileDescNum 2, tileDescNum 1] : List Layer).map (fun layer => layer.id) :=
  spec_c3_order_correct cfgId mcEmpty [tileDescNum 2, tileDescNum 1]
    (mapWith [tileSceneNum 1 0, tileSceneNum 2 1]) 10 4
    (by decide) (by decide) (by decide) (by decide)

end GisSync
